import Mathlib

/-!
# tks-client: `tks cluster list`

A shallow embedding of `cmd/cluster_list.go`: the response filter
(`filterResponse`), the time formatter (`parseTime`), the table builder
(`printClusters`) and the command handler (`clusterListCmd.RunE`), followed by the
properties proved about them.

Byte strings are ASCII throughout and are represented by `String`/`List Char`.
Go's fixed-width integers are represented by `Int`/`Nat` with explicit wrap-around.
-/

set_option autoImplicit false

namespace TksClient


/-! ## Data model (package `tks_pb`) -/

/-- Modelled from the spec: the declaration of the enumeration `pb.ClusterStatus`
lives in the external package `tks_pb` and is not part of the source file. The spec
says it is an enumerated set that includes `DELETED` and other, non-deleted
operational states; `other code` stands for any of those, tagged with its wire
number. -/
inductive ClusterStatus
  | DELETED
  | other (code : Int)
  deriving DecidableEq

/-- The wire timestamp `timestamppb.Timestamp`: `Seconds` is an `int64`, `Nanos` an
`int32`. -/
structure Timestamp where
  Seconds : Int
  Nanos : Int
  deriving DecidableEq

/-- The fields of `pb.Cluster` that the list command reads. The two timestamps are
pointers in Go and may be absent (`none`). -/
structure Cluster where
  Name : String
  Id : String
  Status : ClusterStatus
  CreatedAt : Option Timestamp
  UpdatedAt : Option Timestamp
  CspId : String
  ContractId : String
  StatusDesc : String
  deriving DecidableEq

/-- The getter `(*pb.Cluster).GetStatus` on a decoded cluster. -/
def Cluster.GetStatus (c : Cluster) : ClusterStatus := c.Status

/-- The response message `pb.GetClustersResponse`: the ordered cluster sequence. The
entries of a decoded repeated field are never nil, so the sequence holds clusters. -/
structure GetClustersResponse where
  Clusters : List Cluster
  deriving DecidableEq

/-! ## `filterResponse` -/

/-- The loop of `filterResponse`: `rest` is what `range r.Clusters` has still to
visit, `clusters` the slice built so far; a cluster whose status is not `DELETED` is
appended to it. -/
def filterLoop : List Cluster → List Cluster → List Cluster
  | [], clusters => clusters
  | cluster :: rest, clusters =>
    if cluster.GetStatus ≠ ClusterStatus.DELETED then
      filterLoop rest (clusters ++ [cluster])
    else
      filterLoop rest clusters

/-- The function `filterResponse`: starts from the empty slice, runs the loop and
stores the result back in `r.Clusters`. -/
def filterResponse (r : GetClustersResponse) : GetClustersResponse :=
  { r with Clusters := filterLoop r.Clusters [] }

/-! ## Go's `time` package, as far as `parseTime` uses it

`parseTime` is `t.AsTime().Format("2006-01-02 15:04:05")`. Both calls go into
libraries outside the repository: `AsTime` of `google.golang.org/protobuf`
(`types/known/timestamppb`) and `Unix`, `UTC`, `Format` of the standard package
`time`. The definitions below follow the source of those libraries (`time.go` and
`format.go`, with the classic `absDate`), for every `int64` second count. -/

/-- Wrap-around of a mathematical integer into `int64`. -/
def wrapInt64 (x : Int) : Int := (x + 9223372036854775808) % 18446744073709551616 - 9223372036854775808

/-- The conversion `uint64(x)` of an `int64`. -/
def toUint64 (x : Int) : Nat := (x % 18446744073709551616).toNat

def secondsPerMinute : Nat := 60
def secondsPerHour : Nat := 60 * secondsPerMinute
def secondsPerDay : Nat := 24 * secondsPerHour
def daysPer400Years : Nat := 365 * 400 + 97
def daysPer100Years : Nat := 365 * 100 + 24
def daysPer4Years : Nat := 365 * 4 + 1

/-- The year of the absolute zero instant of package `time`. -/
def absoluteZeroYear : Int := -292277022399

/-- Seconds from the internal epoch (year 1) to the Unix epoch:
`(1969*365 + 1969/4 - 1969/100 + 1969/400) * secondsPerDay`. -/
def unixToInternal : Int := (1969 * 365 + 1969 / 4 - 1969 / 100 + 1969 / 400) * 86400

def internalToUnix : Int := -unixToInternal

/-- Seconds from the absolute zero instant to the internal epoch. -/
def internalToAbsolute : Int := 9223371966579724800

/-- A `*time.Location`: the UTC location or the process's local zone. -/
inductive Location
  | UTC
  | Local
  deriving DecidableEq

/-- A `time.Time` without monotonic reading: nanoseconds within the second, seconds
since January 1 of year 1 (an `int64`), and the location. -/
structure Time where
  nsec : Int
  ext : Int
  loc : Location
  deriving DecidableEq

def unixTime (sec nsec : Int) : Time :=
  { nsec := nsec, ext := wrapInt64 (sec + unixToInternal), loc := Location.Local }

/-- The function `time.Unix(sec, nsec)`: `nsec` outside `[0, 999999999]` is carried
into the seconds (Go's `/` truncates toward zero). -/
def Unix (sec nsec : Int) : Time :=
  if nsec < 0 ∨ nsec ≥ 1000000000 then
    let n := Int.tdiv nsec 1000000000
    let sec1 := wrapInt64 (sec + n)
    let nsec1 := nsec - n * 1000000000
    if nsec1 < 0 then
      unixTime (wrapInt64 (sec1 - 1)) (nsec1 + 1000000000)
    else
      unixTime sec1 nsec1
  else
    unixTime sec nsec

/-- The method `Time.UTC`: the same instant with the location set to UTC. -/
def Time.UTC (t : Time) : Time := { t with loc := Location.UTC }

/-- The method `Time.Unix` (`unixSec`): seconds since the Unix epoch. -/
def Time.unixSec (t : Time) : Int := wrapInt64 (t.ext + internalToUnix)

/-- The absolute seconds computed by `Time.locabs`: the offset of the location is
added unless the location is UTC. `localOffset` is the offset, in seconds east of
UTC, of the process's local zone. -/
def Time.abs (localOffset : Int) (t : Time) : Nat :=
  let sec := t.unixSec
  let sec := if t.loc ≠ Location.UTC then wrapInt64 (sec + localOffset) else sec
  toUint64 (sec + (unixToInternal + internalToAbsolute))

/-- The clock part `absClock`. -/
def absClock (abs : Nat) : Nat × Nat × Nat :=
  let sec := abs % secondsPerDay
  let hour := sec / secondsPerHour
  let sec := sec - hour * secondsPerHour
  let min := sec / secondsPerMinute
  let sec := sec - min * secondsPerMinute
  (hour, min, sec)

/-- The predicate `isLeap`. -/
def isLeap (year : Int) : Bool := year % 4 = 0 ∧ (year % 100 ≠ 0 ∨ year % 400 = 0)

/-- The table `daysBefore`: `daysBefore[m]` counts the days of a non-leap year
before month `m+1`. -/
def daysBefore : List Nat :=
  [0, 31, 31 + 28, 31 + 28 + 31, 31 + 28 + 31 + 30, 31 + 28 + 31 + 30 + 31,
   31 + 28 + 31 + 30 + 31 + 30, 31 + 28 + 31 + 30 + 31 + 30 + 31,
   31 + 28 + 31 + 30 + 31 + 30 + 31 + 31, 31 + 28 + 31 + 30 + 31 + 30 + 31 + 31 + 30,
   31 + 28 + 31 + 30 + 31 + 30 + 31 + 31 + 30 + 31,
   31 + 28 + 31 + 30 + 31 + 30 + 31 + 31 + 30 + 31 + 30,
   31 + 28 + 31 + 30 + 31 + 30 + 31 + 31 + 30 + 31 + 30 + 31]

/-- The year and the day within the year: `absDate` up to `if !full`. -/
def absYearDay (abs : Nat) : Int × Nat :=
  let d := abs / secondsPerDay
  let n := d / daysPer400Years
  let y := 400 * n
  let d := d - daysPer400Years * n
  let n := d / daysPer100Years
  let n := n - n / 4
  let y := y + 100 * n
  let d := d - daysPer100Years * n
  let n := d / daysPer4Years
  let y := y + 4 * n
  let d := d - daysPer4Years * n
  let n := d / 365
  let n := n - n / 4
  let y := y + n
  let d := d - 365 * n
  ((y : Int) + absoluteZeroYear, d)

/-- The month and the day of the month from the day of the year: the rest of
`absDate`. -/
def monthDay (year : Int) (yday : Nat) : Nat × Nat :=
  if isLeap year ∧ yday = 31 + 29 - 1 then
    (2, 29)
  else
    let day := if isLeap year ∧ yday > 31 + 29 - 1 then yday - 1 else yday
    let month := day / 31
    let e := daysBefore.getD (month + 1) 0
    if day ≥ e then
      (month + 1 + 1, day - e + 1)
    else
      (month + 1, day - daysBefore.getD month 0 + 1)

/-- The function `absDate(abs, true)`: year, month, day of the month. -/
def absDate (abs : Nat) : Int × Nat × Nat :=
  let yd := absYearDay abs
  let md := monthDay yd.1 yd.2
  (yd.1, md.1, md.2)

/-- The digit loop of `appendInt`: the decimal digits of `u` are written from the
end of a 20-byte buffer; `fuel` is the room left in it. -/
def digitLoop : Nat → Nat → List Char → List Char
  | 0, _, buf => buf
  | fuel + 1, u, buf =>
    if u ≥ 10 then
      digitLoop fuel (u / 10) (Char.ofNat (48 + (u - u / 10 * 10)) :: buf)
    else
      Char.ofNat (48 + u) :: buf

/-- The function `appendInt(b, x, width)`: a minus sign for a negative `x`, then the
decimal digits of its magnitude, padded with leading zeros up to `width`. -/
def appendInt (b : List Char) (x : Int) (width : Nat) : List Char :=
  let b := if x < 0 then b ++ ['-'] else b
  let u := x.natAbs
  let digits := digitLoop 20 u []
  b ++ List.replicate (width - digits.length) '0' ++ digits

/-- The layout elements that `nextStdChunk` recognises in the layout of `parseTime`. -/
inductive StdElem
  | stdLongYear
  | stdZeroMonth
  | stdZeroDay
  | stdHour
  | stdZeroMinute
  | stdZeroSecond
  deriving DecidableEq

/-- The layout `"2006-01-02 15:04:05"` as the sequence of chunks that
`nextStdChunk` yields: the literal prefix before each element, and the element. -/
def layout : List (List Char × StdElem) :=
  [([], StdElem.stdLongYear), (['-'], StdElem.stdZeroMonth), (['-'], StdElem.stdZeroDay),
   ([' '], StdElem.stdHour), ([':'], StdElem.stdZeroMinute), ([':'], StdElem.stdZeroSecond)]

/-- One iteration of the loop of `Time.AppendFormat`. -/
def appendChunk (abs : Nat) (b : List Char) (chunk : List Char × StdElem) : List Char :=
  let b := b ++ chunk.1
  match chunk.2 with
  | StdElem.stdLongYear => appendInt b (absDate abs).1 4
  | StdElem.stdZeroMonth => appendInt b (absDate abs).2.1 2
  | StdElem.stdZeroDay => appendInt b (absDate abs).2.2 2
  | StdElem.stdHour => appendInt b (absClock abs).1 2
  | StdElem.stdZeroMinute => appendInt b (absClock abs).2.1 2
  | StdElem.stdZeroSecond => appendInt b (absClock abs).2.2 2

/-- The method `Time.Format` applied to the layout of `parseTime`. -/
def Time.Format (localOffset : Int) (t : Time) : String :=
  String.mk (layout.foldl (appendChunk (t.abs localOffset)) [])

/-! ## `parseTime` -/

def Timestamp.GetSeconds : Option Timestamp → Int
  | none => 0
  | some x => x.Seconds

def Timestamp.GetNanos : Option Timestamp → Int
  | none => 0
  | some x => x.Nanos

/-- The method `(*timestamppb.Timestamp).AsTime`:
`time.Unix(int64(x.GetSeconds()), int64(x.GetNanos())).UTC()`. -/
def Timestamp.AsTime (x : Option Timestamp) : Time :=
  (Unix (Timestamp.GetSeconds x) (Timestamp.GetNanos x)).UTC

/-- The function `parseTime`; `localOffset` is the offset of the local zone of the
invoking process, which `Time.Format` consults for a time that is not in UTC. -/
def parseTime (localOffset : Int) (t : Option Timestamp) : String :=
  (Timestamp.AsTime t).Format localOffset

/-! ## `printClusters` (package `go-pretty/table`) -/

/-- A cell of a `table.Row` (`[]interface{}`): the list command puts strings and
status values into rows. -/
inductive Cell
  | str (s : String)
  | status (s : ClusterStatus)
  deriving DecidableEq

/-- The style options that `printClusters` sets on the writer. -/
structure Options where
  DrawBorder : Bool
  SeparateColumns : Bool
  SeparateFooter : Bool
  SeparateHeader : Bool
  SeparateRows : Bool
  deriving DecidableEq

/-- The state of a `table.Writer`: the header rows and the data rows appended so
far, and the style options. -/
structure Table where
  rowsHeader : List (List Cell)
  rows : List (List Cell)
  options : Options
  deriving DecidableEq

/-- The writer returned by `table.NewWriter()`, with the five options assigned by
`printClusters`. -/
def NewWriter : Table :=
  { rowsHeader := [], rows := [],
    options := { DrawBorder := false, SeparateColumns := false, SeparateFooter := false,
                 SeparateHeader := false, SeparateRows := false } }

def Table.AppendHeader (t : Table) (row : List Cell) : Table :=
  { t with rowsHeader := t.rowsHeader ++ [row] }

def Table.AppendRow (t : Table) (row : List Cell) : Table :=
  { t with rows := t.rows ++ [row] }

/-- The body of the loop of the long branch of `printClusters`. -/
def appendLong (localOffset : Int) (t : Table) (s : Cluster) : Table :=
  let tCreatedAt := parseTime localOffset s.CreatedAt
  let tUpdatedAt := parseTime localOffset s.UpdatedAt
  t.AppendRow [Cell.str s.Name, Cell.str s.Id, Cell.status s.Status, Cell.str tCreatedAt,
    Cell.str tUpdatedAt, Cell.str s.CspId, Cell.str s.ContractId, Cell.str s.StatusDesc]

/-- The body of the loop of the short branch of `printClusters`. -/
def appendShort (localOffset : Int) (t : Table) (s : Cluster) : Table :=
  let tCreatedAt := parseTime localOffset s.CreatedAt
  let tUpdatedAt := parseTime localOffset s.UpdatedAt
  t.AppendRow [Cell.str s.Name, Cell.str s.Id, Cell.status s.Status, Cell.str tCreatedAt,
    Cell.str tUpdatedAt]

/-- The function `printClusters`: the value is the writer `t` at the moment
`t.Render()` is printed. The throw-away `tTemp.Render()` of an empty table has no
effect and is left out. -/
def printClusters (localOffset : Int) (r : GetClustersResponse) (long : Bool) : Table :=
  let t := NewWriter
  if long then
    let t := t.AppendHeader [Cell.str "Name", Cell.str "ID", Cell.str "Status",
      Cell.str "CREATED_AT", Cell.str "UPDATED_AT", Cell.str "CSP_ID", Cell.str "CONTRACT_ID",
      Cell.str "STATUS_DESC"]
    r.Clusters.foldl (appendLong localOffset) t
  else
    let t := t.AppendHeader [Cell.str "Name", Cell.str "ID", Cell.str "Status",
      Cell.str "CREATED_AT", Cell.str "UPDATED_AT"]
    r.Clusters.foldl (appendShort localOffset) t

/-! ## The handler `clusterListCmd.RunE` -/

/-- The request message `pb.GetClustersRequest`. -/
structure GetClustersRequest where
  ContractId : String
  deriving DecidableEq

/-- What the handler does to the outside world, in order. -/
inductive Event
  /-- The call `grpc.Dial(target, grpc.WithInsecure())`. -/
  | dial (target : String)
  /-- The call `fmt.Println(line)`. -/
  | println (line : String)
  /-- The call `fmt.Println(string(jsonBytes))` with the marshalled request. -/
  | printlnJson (data : GetClustersRequest)
  /-- The call `fmt.Println(t.Render())` inside `printClusters`. -/
  | printlnTable (t : Table)
  /-- The message written by `log.Fatalf`. -/
  | logFatal (msg : String)
  /-- The remote call `client.GetClusters(ctx, &data)`. -/
  | getClusters (data : GetClustersRequest)
  /-- The deferred `cancel()`. -/
  | cancel
  /-- The deferred `conn.Close()`. -/
  | connClose
  deriving DecidableEq

/-- How the handler ends: it returns an error value (`none` is `nil`) to cobra, or
the process exits with a status. -/
inductive Outcome
  | returned (err : Option String)
  | exited (code : Nat)
  deriving DecidableEq

/-- A run of the handler: the events in order, and how it ended. -/
structure Run where
  trace : List Event
  outcome : Outcome
  deriving DecidableEq

/-- What the handler reads from its surroundings: the two configuration values, the
two flags, the offset of the process's local time zone, the result of dialling a
target (an error message on failure) and the result of the remote call (an error
message on failure). -/
structure Env where
  tksInfoUrl : String
  contractId : String
  verbose : Bool
  long : Bool
  localOffset : Int
  Dial : String → Except String Unit
  GetClusters : GetClustersRequest → Except String GetClustersResponse

/-- The function `RunE` of `clusterListCmd`. `log.Fatalf` and `os.Exit(1)` end the
process with status 1 without running the deferred calls; a normal return runs the
deferred `cancel()` and `conn.Close()`, last deferred first. The file calls
`os.Exit` without importing `os`; the call is read as the standard `os.Exit`. The
errors of the two `GetBool` calls are discarded by the code, so the flags are plain
booleans. -/
def RunE (env : Env) : Run :=
  if env.tksInfoUrl = "" then
    { trace := [], outcome := Outcome.returned (some "You must specify tksInfoUrl at config file") }
  else
    match env.Dial env.tksInfoUrl with
    | Except.error err =>
      { trace := [Event.dial env.tksInfoUrl, Event.logFatal ("did not connect: " ++ err)],
        outcome := Outcome.exited 1 }
    | Except.ok _ =>
      let data : GetClustersRequest := { ContractId := env.contractId }
      let trace := [Event.dial env.tksInfoUrl]
      let trace :=
        if env.verbose then
          trace ++ [Event.println "Proto Json data...", Event.printlnJson data]
        else trace
      let trace := trace ++ [Event.getClusters data]
      match env.GetClusters data with
      | Except.error err =>
        { trace := trace ++ [Event.println err], outcome := Outcome.exited 1 }
      | Except.ok r =>
        let trace :=
          if r.Clusters.length = 0 then
            trace ++ [Event.println "No cluster exists for specified contract!"]
          else
            trace ++ [Event.printlnTable (printClusters env.localOffset (filterResponse r) env.long)]
        { trace := trace ++ [Event.cancel, Event.connClose], outcome := Outcome.returned none }

/-- The lines written to standard output during a run, in order. -/
def stdout (trace : List Event) : List Event :=
  trace.filter fun e =>
    match e with
    | Event.println _ => true
    | Event.printlnJson _ => true
    | Event.printlnTable _ => true
    | _ => false

/-- The text written to standard output during a run: `fmt.Println` writes its
argument and a newline. The text of the marshalled request (`protojson` with a
two-space indent, several lines for a non-empty request) and the text of a rendered
table come from libraries outside the repository and are the parameters `marshal`
and `render`. -/
def stdoutText (marshal : GetClustersRequest → String) (render : Table → String) :
    List Event → String
  | [] => ""
  | Event.println line :: rest => line ++ "\n" ++ stdoutText marshal render rest
  | Event.printlnJson data :: rest => marshal data ++ "\n" ++ stdoutText marshal render rest
  | Event.printlnTable t :: rest => render t ++ "\n" ++ stdoutText marshal render rest
  | _ :: rest => stdoutText marshal render rest

/-- The remote calls issued during a run, in order. -/
def remoteCalls (trace : List Event) : List Event :=
  trace.filter fun e =>
    match e with
    | Event.getClusters _ => true
    | _ => false

/-- The connection attempts made during a run. -/
def dials (trace : List Event) : List Event :=
  trace.filter fun e =>
    match e with
    | Event.dial _ => true
    | _ => false

/-- The tables rendered during a run, in order. -/
def tables (trace : List Event) : List Table :=
  trace.filterMap fun e =>
    match e with
    | Event.printlnTable t => some t
    | _ => none

/-! ## Vocabulary of the statements -/

/-- A cluster is kept by the filter when its status is not `DELETED`. -/
def notDeleted (c : Cluster) : Bool := decide (c.GetStatus ≠ ClusterStatus.DELETED)

/-- The header row the spec lists for each mode: five columns, followed by three more
in long mode. -/
def headerRow (long : Bool) : List Cell :=
  [Cell.str "Name", Cell.str "ID", Cell.str "Status", Cell.str "CREATED_AT",
    Cell.str "UPDATED_AT"] ++
  if long then [Cell.str "CSP_ID", Cell.str "CONTRACT_ID", Cell.str "STATUS_DESC"] else []

/-- The data row the spec describes for a cluster: name, id, status, formatted
created-at, formatted updated-at, followed in long mode by CSP id, contract id and
status description. -/
def dataRow (localOffset : Int) (long : Bool) (s : Cluster) : List Cell :=
  [Cell.str s.Name, Cell.str s.Id, Cell.status s.Status,
    Cell.str (parseTime localOffset s.CreatedAt), Cell.str (parseTime localOffset s.UpdatedAt)] ++
  if long then [Cell.str s.CspId, Cell.str s.ContractId, Cell.str s.StatusDesc] else []

/-- The request dump printed before the call in verbose mode. -/
def verboseDump (env : Env) : List Event :=
  if env.verbose then
    [Event.println "Proto Json data...", Event.printlnJson { ContractId := env.contractId }]
  else []

/-- The decimal digit character of a number below ten. -/
def digitChar (k : Nat) : Char := Char.ofNat (48 + k)

/-- The years that `absYearDay` counts inside a 400-year cycle, from the day `d`
within the cycle. -/
def cycleYears (d : Nat) : Nat :=
  100 * (d / 36524 - d / 36524 / 4)
    + 4 * ((d - 36524 * (d / 36524 - d / 36524 / 4)) / 1461)
    + ((d - 36524 * (d / 36524 - d / 36524 / 4)
          - 1461 * ((d - 36524 * (d / 36524 - d / 36524 / 4)) / 1461)) / 365
        - (d - 36524 * (d / 36524 - d / 36524 / 4)
          - 1461 * ((d - 36524 * (d / 36524 - d / 36524 / 4)) / 1461)) / 365 / 4)

/-- The day of the year that `absYearDay` computes inside a 400-year cycle, from the
day `d` within the cycle. -/
def cycleYday (d : Nat) : Nat :=
  d - 36524 * (d / 36524 - d / 36524 / 4)
    - 1461 * ((d - 36524 * (d / 36524 - d / 36524 / 4)) / 1461)
    - 365 * ((d - 36524 * (d / 36524 - d / 36524 / 4)
          - 1461 * ((d - 36524 * (d / 36524 - d / 36524 / 4)) / 1461)) / 365
        - (d - 36524 * (d / 36524 - d / 36524 / 4)
          - 1461 * ((d - 36524 * (d / 36524 - d / 36524 / 4)) / 1461)) / 365 / 4)

/-- The month that holds the day `o` of a year (`o = 0` is January 1), by the leap
flag of the year. -/
def monthOfOffset (leap : Bool) (o : Nat) : Nat :=
  let l := if leap then 1 else 0
  if o < 31 then 1
  else if o < 59 + l then 2
  else if o < 90 + l then 3
  else if o < 120 + l then 4
  else if o < 151 + l then 5
  else if o < 181 + l then 6
  else if o < 212 + l then 7
  else if o < 243 + l then 8
  else if o < 273 + l then 9
  else if o < 304 + l then 10
  else if o < 334 + l then 11
  else 12

/-- The pattern `YYYY-MM-DD HH:MM:SS`: four digits, `-`, two digits, `-`, two digits,
a space, two digits, `:`, two digits, `:`, two digits, and nothing else. -/
def isTimePattern (s : String) : Bool :=
  match s.data with
  | [y0, y1, y2, y3, c4, m0, m1, c7, d0, d1, c10, h0, h1, c13, n0, n1, c16, s0, s1] =>
    y0.isDigit && y1.isDigit && y2.isDigit && y3.isDigit && c4 == '-'
      && m0.isDigit && m1.isDigit && c7 == '-' && d0.isDigit && d1.isDigit && c10 == ' '
      && h0.isDigit && h1.isDigit && c13 == ':' && n0.isDigit && n1.isDigit && c16 == ':'
      && s0.isDigit && s1.isDigit
  | _ => false

/-! ### The civil calendar

The proleptic Gregorian calendar with astronomical year numbering, written down
without reference to the code above: the leap-year rule, the lengths of the months,
and the number of days between 1970-01-01 and a date. -/

/-- The Gregorian leap-year rule. -/
def leapYear (y : Int) : Bool := decide (y % 4 = 0 ∧ (y % 100 ≠ 0 ∨ y % 400 = 0))

/-- The number of days of a year. -/
def daysInYear (y : Int) : Nat := if leapYear y then 366 else 365

/-- The number of days of month `m` (1 to 12) of year `y`. -/
def daysInMonth (y : Int) (m : Nat) : Nat :=
  if m = 2 then (if leapYear y then 29 else 28)
  else if m = 4 ∨ m = 6 ∨ m = 9 ∨ m = 11 then 30
  else 31

/-- The number of days from 1970-01-01 to January 1 of year `y`: 365 for every year
in between, and one more for every leap year in between (the leap years before
year `y` minus the 477 leap years before 1970). -/
def daysToYear (y : Int) : Int :=
  365 * (y - 1970) + ((y - 1) / 4 - (y - 1) / 100 + (y - 1) / 400) - 477

/-- The number of days of year `y` before its month `m`: the lengths of the months
`1` to `m - 1` added up. -/
def daysToMonth (y : Int) (m : Nat) : Nat :=
  ((List.range (m - 1)).map fun k => daysInMonth y (k + 1)).sum

/-- The number of days from 1970-01-01 to the date `y`-`m`-`dd`. -/
def civilDay (y : Int) (m dd : Nat) : Int :=
  daysToYear y + (daysToMonth y m : Int) + ((dd : Int) - 1)

/-- The decimal digits of a natural number, most significant first. -/
def decimal (n : Nat) : List Char :=
  if n = 0 then ['0'] else (Nat.digits 10 n).reverse.map digitChar

/-- A number written in decimal with at least `width` digits: a minus sign when it is
negative, then its magnitude with leading zeros. -/
def padded (width : Nat) (x : Int) : List Char :=
  (if x < 0 then ['-'] else []) ++
    List.replicate (width - (decimal x.natAbs).length) '0' ++ decimal x.natAbs

/-- The text `YYYY-MM-DD HH:MM:SS` of a date and a time of day. -/
def civilText (y : Int) (m dd hh mm ss : Nat) : String :=
  String.mk (padded 4 y ++ ['-'] ++ padded 2 m ++ ['-'] ++ padded 2 dd ++ [' '] ++
    padded 2 hh ++ [':'] ++ padded 2 mm ++ [':'] ++ padded 2 ss)

/-- The instant of a timestamp in whole seconds since the Unix epoch: the seconds
plus the whole seconds contained in the nanoseconds; an absent timestamp is the
epoch. -/
def instantSeconds : Option Timestamp → Int
  | none => 0
  | some x => x.Seconds + x.Nanos / 1000000000

/-- The statement that `text` is the calendar date and wall-clock time, in UTC, of
the instant `s` seconds after the Unix epoch: it is the text of a date `y`-`m`-`dd`
of the calendar that lies `s / 86400` whole days after 1970-01-01, and of the time
of day given by the remaining `s % 86400` seconds. -/
def IsUtcRendering (s : Int) (text : String) : Prop :=
  ∃ (y : Int) (m dd : Nat), 1 ≤ m ∧ m ≤ 12 ∧ 1 ≤ dd ∧ dd ≤ daysInMonth y m
    ∧ civilDay y m dd = s / 86400
    ∧ text = civilText y m dd (s % 86400 / 3600).toNat (s % 3600 / 60).toNat (s % 60).toNat

/-- The statement C6 makes for a process whose local zone is `d` seconds east of
UTC: `text` is the date and time of the instant `s` on the clocks of that zone, which
show the UTC date and time of `s + d`. -/
def IsLocalRendering (d s : Int) (text : String) : Prop := IsUtcRendering (s + d) text

/-! ## Concrete surroundings used to instantiate the statements -/

/-- A cluster with the given name and status, created at the epoch and without an
update time. -/
def sampleCluster (name : String) (status : ClusterStatus) : Cluster :=
  { Name := name, Id := "id-" ++ name, Status := status,
    CreatedAt := some { Seconds := 0, Nanos := 0 }, UpdatedAt := none,
    CspId := "csp", ContractId := "contract", StatusDesc := "" }

/-- Surroundings with a configured endpoint, a connection that opens and a remote
call that answers `answer`. -/
def sampleEnv (verbose long : Bool) (answer : Except String GetClustersResponse) : Env :=
  { tksInfoUrl := "tks-info:9110", contractId := "contract", verbose := verbose, long := long,
    localOffset := 0, Dial := fun _ => Except.ok (), GetClusters := fun _ => answer }

/-- A marshaller in the format of `protojson` with a two-space indent and proto field
names, for contract ids that need no escaping: an empty request is `\x7b\x7d`, a
request with a contract id takes three lines. -/
def sampleMarshal (data : GetClustersRequest) : String :=
  if data.ContractId = "" then "\x7b\x7d"
  else "\x7b\n  \"contract_id\": \"" ++ data.ContractId ++ "\"\n\x7d"

/-- Surroundings in which `tksInfoUrl` is not configured. -/
def unconfiguredEnv : Env :=
  { tksInfoUrl := "", contractId := "contract", verbose := true, long := false,
    localOffset := 0, Dial := fun _ => Except.ok (),
    GetClusters := fun _ => Except.ok { Clusters := [] } }

/-- The response of the example: three clusters, the second of them `DELETED`. -/
def threeClusters : GetClustersResponse :=
  { Clusters := [sampleCluster "a" (ClusterStatus.other 2),
      sampleCluster "b" ClusterStatus.DELETED, sampleCluster "c" (ClusterStatus.other 1)] }

/-- A response with two clusters, both `DELETED`. -/
def allDeleted : GetClustersResponse :=
  { Clusters := [sampleCluster "a" ClusterStatus.DELETED, sampleCluster "b" ClusterStatus.DELETED] }

/-! ## Properties of `filterResponse` -/

theorem filterLoop_eq_append_filter (l clusters : List Cluster) :
    filterLoop l clusters = clusters ++ l.filter notDeleted := by
  induction l generalizing clusters with
  | nil => simp [filterLoop]
  | cons c rest ih =>
    by_cases h : c.GetStatus = ClusterStatus.DELETED
    · simp [filterLoop, ih, notDeleted, h]
    · simp [filterLoop, ih, notDeleted, h]

theorem filterResponse_Clusters (r : GetClustersResponse) :
    (filterResponse r).Clusters = r.Clusters.filter notDeleted := by
  simp [filterResponse, filterLoop_eq_append_filter]

/-- C1: the cluster sequence returned by `filterResponse` is the input sequence with
the `DELETED` entries removed: it is the order-preserving selection of the entries
whose status is not `DELETED`, so an entry is in the output exactly when it is in
the input and is not `DELETED`, the output is a subsequence of the input (same
relative order, nothing added), every kept entry occurs as often as in the input,
and the empty input gives the empty output. -/
theorem filterResponse_removes_exactly_deleted (r : GetClustersResponse) :
    (filterResponse r).Clusters = r.Clusters.filter notDeleted
    ∧ (∀ c, c ∈ (filterResponse r).Clusters ↔
        c ∈ r.Clusters ∧ c.GetStatus ≠ ClusterStatus.DELETED)
    ∧ (filterResponse r).Clusters.Sublist r.Clusters
    ∧ (∀ c, c.GetStatus ≠ ClusterStatus.DELETED →
        (filterResponse r).Clusters.count c = r.Clusters.count c)
    ∧ (r.Clusters = [] → (filterResponse r).Clusters = []) := by
  rw [filterResponse_Clusters]
  refine ⟨rfl, ?_, List.filter_sublist _, ?_, ?_⟩
  · intro c
    simp [List.mem_filter, notDeleted]
  · intro c hc
    rw [List.count_filter]
    simp [notDeleted, hc]
  · intro h
    simp [h]

/-- C2: `filterResponse` is idempotent: filtering a filtered response changes
nothing. -/
theorem filterResponse_idempotent (r : GetClustersResponse) :
    filterResponse (filterResponse r) = filterResponse r := by
  have h := filterResponse_Clusters (filterResponse r)
  rw [filterResponse_Clusters r, List.filter_filter] at h
  have h2 : (filterResponse (filterResponse r)).Clusters = (filterResponse r).Clusters := by
    rw [h, filterResponse_Clusters r]
    simp
  cases hr : filterResponse (filterResponse r)
  cases hr2 : filterResponse r
  simp_all

/-! ## Properties of `printClusters` -/

theorem foldl_appendLong (localOffset : Int) (l : List Cluster) (t : Table) :
    l.foldl (appendLong localOffset) t =
      { t with rows := t.rows ++ l.map (dataRow localOffset true) } := by
  induction l generalizing t with
  | nil => simp
  | cons s rest ih => simp [ih, appendLong, Table.AppendRow, dataRow]

theorem foldl_appendShort (localOffset : Int) (l : List Cluster) (t : Table) :
    l.foldl (appendShort localOffset) t =
      { t with rows := t.rows ++ l.map (dataRow localOffset false) } := by
  induction l generalizing t with
  | nil => simp
  | cons s rest ih => simp [ih, appendShort, Table.AppendRow, dataRow]

theorem printClusters_eq (localOffset : Int) (r : GetClustersResponse) (long : Bool) :
    printClusters localOffset r long =
      { rowsHeader := [headerRow long], rows := r.Clusters.map (dataRow localOffset long),
        options := NewWriter.options } := by
  cases long
  · simp [printClusters, foldl_appendShort, Table.AppendHeader, NewWriter, headerRow]
  · simp [printClusters, foldl_appendLong, Table.AppendHeader, NewWriter, headerRow]

theorem dataRow_length (localOffset : Int) (long : Bool) (s : Cluster) :
    (dataRow localOffset long s).length = if long then 8 else 5 := by
  cases long <;> simp [dataRow]

/-- C7: for every cluster sequence, the empty one included, the table built by
`printClusters` has one header row and one data row per cluster, in the order of the
input; the header and every data row have 5 cells in short mode and 8 cells in long
mode, and the cells of a data row are the name, id, status, formatted created-at and
formatted updated-at of its cluster, followed in long mode by its CSP id, contract
id and status description. -/
theorem printClusters_table (localOffset : Int) (r : GetClustersResponse) (long : Bool) :
    (printClusters localOffset r long).rowsHeader = [headerRow long]
    ∧ (printClusters localOffset r long).rows.length = r.Clusters.length
    ∧ (printClusters localOffset r long).rows =
        r.Clusters.map (fun s =>
          [Cell.str s.Name, Cell.str s.Id, Cell.status s.Status,
            Cell.str (parseTime localOffset s.CreatedAt),
            Cell.str (parseTime localOffset s.UpdatedAt)] ++
          if long then [Cell.str s.CspId, Cell.str s.ContractId, Cell.str s.StatusDesc]
          else [])
    ∧ (headerRow long).length = (if long then 8 else 5)
    ∧ (∀ row ∈ (printClusters localOffset r long).rows,
        row.length = if long then 8 else 5) := by
  rw [printClusters_eq]
  refine ⟨rfl, by simp, rfl, by cases long <;> simp [headerRow], ?_⟩
  intro row hrow
  simp only [List.mem_map] at hrow
  obtain ⟨s, _, rfl⟩ := hrow
  exact dataRow_length localOffset long s

/-! ## Properties of the handler -/

theorem RunE_dial_failed (env : Env) (err : String) (hurl : env.tksInfoUrl ≠ "")
    (hdial : env.Dial env.tksInfoUrl = Except.error err) :
    RunE env =
      { trace := [Event.dial env.tksInfoUrl, Event.logFatal ("did not connect: " ++ err)],
        outcome := Outcome.exited 1 } := by
  unfold RunE
  rw [if_neg hurl]
  simp only [hdial]

theorem RunE_call_failed (env : Env) (err : String) (hurl : env.tksInfoUrl ≠ "")
    (hdial : env.Dial env.tksInfoUrl = Except.ok ())
    (hcall : env.GetClusters { ContractId := env.contractId } = Except.error err) :
    RunE env =
      { trace := [Event.dial env.tksInfoUrl] ++ verboseDump env ++
          [Event.getClusters { ContractId := env.contractId }, Event.println err],
        outcome := Outcome.exited 1 } := by
  unfold RunE verboseDump
  rw [if_neg hurl]
  simp only [hdial, hcall]
  cases env.verbose <;> simp

theorem RunE_call_ok (env : Env) (r : GetClustersResponse) (hurl : env.tksInfoUrl ≠ "")
    (hdial : env.Dial env.tksInfoUrl = Except.ok ())
    (hcall : env.GetClusters { ContractId := env.contractId } = Except.ok r) :
    RunE env =
      { trace := [Event.dial env.tksInfoUrl] ++ verboseDump env ++
          [Event.getClusters { ContractId := env.contractId },
           if r.Clusters.length = 0 then
             Event.println "No cluster exists for specified contract!"
           else
             Event.printlnTable
               (printClusters env.localOffset (filterResponse r) env.long),
           Event.cancel, Event.connClose],
        outcome := Outcome.returned none } := by
  unfold RunE verboseDump
  rw [if_neg hurl]
  simp only [hdial, hcall]
  cases env.verbose <;> by_cases h : r.Clusters.length = 0 <;> simp [h]

/-- C3: with an empty `tksInfoUrl` the handler returns the configuration error to
its caller (the process does not exit), having opened no connection, issued no
remote call and printed nothing; with a non-empty `tksInfoUrl` that error is not
returned. -/
theorem RunE_configuration_error (env : Env) :
    (env.tksInfoUrl = "" →
      RunE env =
        { trace := [],
          outcome := Outcome.returned (some "You must specify tksInfoUrl at config file") }
      ∧ dials (RunE env).trace = [] ∧ remoteCalls (RunE env).trace = []
      ∧ stdout (RunE env).trace = [])
    ∧ (env.tksInfoUrl ≠ "" →
      (RunE env).outcome ≠
        Outcome.returned (some "You must specify tksInfoUrl at config file")) := by
  constructor
  · intro h
    have hrun : RunE env =
        { trace := [],
          outcome := Outcome.returned (some "You must specify tksInfoUrl at config file") } := by
      unfold RunE
      rw [if_pos h]
    rw [hrun]
    exact ⟨rfl, rfl, rfl, rfl⟩
  · intro h
    rcases hd : env.Dial env.tksInfoUrl with e | u
    · rw [RunE_dial_failed env e h hd]
      simp
    · rcases hc : env.GetClusters { ContractId := env.contractId } with e | r
      · rw [RunE_call_failed env e h hd hc]
        simp
      · rw [RunE_call_ok env r h hd hc]
        simp

theorem RunE_configuration_error_witness :
    RunE unconfiguredEnv =
        { trace := [],
          outcome := Outcome.returned (some "You must specify tksInfoUrl at config file") }
    ∧ (RunE (sampleEnv true false (Except.error "rpc error"))).outcome ≠
        Outcome.returned (some "You must specify tksInfoUrl at config file") :=
  ⟨((RunE_configuration_error unconfiguredEnv).1 rfl).1,
   (RunE_configuration_error (sampleEnv true false (Except.error "rpc error"))).2 (by decide)⟩

/-- C4 as stated fails: with the verbose flag set, a successful call that returns
zero clusters prints the request dump before the no-cluster line, so the output is
not exactly that line; with the marshaller of the example it is five lines. -/
theorem no_cluster_line_not_alone_when_verbose :
    (sampleEnv true false (Except.ok { Clusters := [] })).tksInfoUrl ≠ ""
    ∧ (sampleEnv true false (Except.ok { Clusters := [] })).Dial "tks-info:9110" = Except.ok ()
    ∧ (sampleEnv true false (Except.ok { Clusters := [] })).GetClusters
        { ContractId := "contract" } = Except.ok { Clusters := [] }
    ∧ stdout (RunE (sampleEnv true false (Except.ok { Clusters := [] }))).trace =
        [Event.println "Proto Json data...", Event.printlnJson { ContractId := "contract" },
         Event.println "No cluster exists for specified contract!"]
    ∧ stdout (RunE (sampleEnv true false (Except.ok { Clusters := [] }))).trace ≠
        [Event.println "No cluster exists for specified contract!"]
    ∧ stdoutText sampleMarshal (fun _ => "")
        (RunE (sampleEnv true false (Except.ok { Clusters := [] }))).trace =
        "Proto Json data...\n\x7b\n  \"contract_id\": \"contract\"\n\x7d\nNo cluster exists for specified contract!\n"
    ∧ stdoutText sampleMarshal (fun _ => "")
        (RunE (sampleEnv true false (Except.ok { Clusters := [] }))).trace ≠
        "No cluster exists for specified contract!\n" := by
  refine ⟨by decide, rfl, rfl, by decide, by decide, by decide, by decide⟩

/-- C4, amended: for every successful remote call whose response contains zero
clusters, the output ends with the literal line "No cluster exists for specified
contract!". Without the verbose flag the output is exactly that line. With the
verbose flag it is preceded by the request dump and by nothing else: the line
"Proto Json data..." and then the marshalled request, whatever text the marshaller
produces. No table is rendered and the handler returns without error. -/
theorem RunE_no_cluster (env : Env) (r : GetClustersResponse) (hurl : env.tksInfoUrl ≠ "")
    (hdial : env.Dial env.tksInfoUrl = Except.ok ())
    (hcall : env.GetClusters { ContractId := env.contractId } = Except.ok r)
    (hempty : r.Clusters.length = 0) :
    stdout (RunE env).trace =
        (if env.verbose then
          [Event.println "Proto Json data...",
           Event.printlnJson { ContractId := env.contractId }]
         else []) ++ [Event.println "No cluster exists for specified contract!"]
    ∧ (env.verbose = false →
        stdout (RunE env).trace = [Event.println "No cluster exists for specified contract!"])
    ∧ (∀ marshal render, stdoutText marshal render (RunE env).trace =
        (if env.verbose then
          "Proto Json data...\n" ++ (marshal { ContractId := env.contractId } ++ "\n")
         else "") ++ "No cluster exists for specified contract!\n")
    ∧ (env.verbose = false → ∀ marshal render,
        stdoutText marshal render (RunE env).trace =
          "No cluster exists for specified contract!\n")
    ∧ tables (RunE env).trace = []
    ∧ (RunE env).outcome = Outcome.returned none := by
  rw [RunE_call_ok env r hurl hdial hcall]
  cases hv : env.verbose <;>
    simp [stdout, stdoutText, tables, verboseDump, hv, hempty, String.append_assoc]

theorem RunE_no_cluster_witness :
    stdout (RunE (sampleEnv false true (Except.ok { Clusters := [] }))).trace =
        [Event.println "No cluster exists for specified contract!"]
    ∧ stdoutText sampleMarshal (fun _ => "")
        (RunE (sampleEnv false true (Except.ok { Clusters := [] }))).trace =
        "No cluster exists for specified contract!\n"
    ∧ tables (RunE (sampleEnv false true (Except.ok { Clusters := [] }))).trace = []
    ∧ (RunE (sampleEnv false true (Except.ok { Clusters := [] }))).outcome =
        Outcome.returned none :=
  have h := RunE_no_cluster (sampleEnv false true (Except.ok { Clusters := [] }))
    { Clusters := [] } (by decide) rfl rfl rfl
  ⟨h.2.1 rfl, h.2.2.2.1 rfl sampleMarshal (fun _ => ""), h.2.2.2.2.1, h.2.2.2.2.2⟩

/-- C9: once the endpoint is non-empty and the connection opens, the handler issues
exactly one `GetClusters` call; if that call fails, the handler prints the error and
the process exits with status 1: the error line is the only thing done after the
call, so no table is rendered, no no-cluster line is printed and no second call is
issued. -/
theorem RunE_one_call (env : Env) (hurl : env.tksInfoUrl ≠ "")
    (hdial : env.Dial env.tksInfoUrl = Except.ok ()) :
    remoteCalls (RunE env).trace = [Event.getClusters { ContractId := env.contractId }]
    ∧ (remoteCalls (RunE env).trace).length = 1
    ∧ ∀ err, env.GetClusters { ContractId := env.contractId } = Except.error err →
        (RunE env).outcome = Outcome.exited 1
        ∧ (RunE env).trace =
            [Event.dial env.tksInfoUrl] ++
            (if env.verbose then
              [Event.println "Proto Json data...",
               Event.printlnJson { ContractId := env.contractId }]
             else []) ++
            [Event.getClusters { ContractId := env.contractId }, Event.println err]
        ∧ tables (RunE env).trace = []
        ∧ Event.cancel ∉ (RunE env).trace := by
  rcases hc : env.GetClusters { ContractId := env.contractId } with e | r
  · rw [RunE_call_failed env e hurl hdial hc]
    cases hv : env.verbose <;> simp [remoteCalls, tables, verboseDump, hv]
  · rw [RunE_call_ok env r hurl hdial hc]
    cases hv : env.verbose <;> by_cases h0 : r.Clusters.length = 0 <;>
      simp [remoteCalls, verboseDump, hv, h0]

theorem RunE_one_call_witness :
    remoteCalls (RunE (sampleEnv false false (Except.error "rpc error"))).trace =
        [Event.getClusters { ContractId := "contract" }]
    ∧ (RunE (sampleEnv false false (Except.error "rpc error"))).outcome = Outcome.exited 1
    ∧ (RunE (sampleEnv false false (Except.error "rpc error"))).trace =
        [Event.dial "tks-info:9110", Event.getClusters { ContractId := "contract" },
         Event.println "rpc error"] :=
  have h := RunE_one_call (sampleEnv false false (Except.error "rpc error")) (by decide) rfl
  ⟨h.1, (h.2.2 "rpc error" rfl).1, (h.2.2 "rpc error" rfl).2.1⟩

/-- C8: for every successful remote call whose response is non-empty, the handler
renders one table, `printClusters` applied to `filterResponse` of the response; its
data rows are the rows of the clusters of the response that are not `DELETED`, in
their original relative order, so there are as many data rows as clusters that are
not `DELETED`. -/
theorem RunE_table_rows (env : Env) (r : GetClustersResponse) (hurl : env.tksInfoUrl ≠ "")
    (hdial : env.Dial env.tksInfoUrl = Except.ok ())
    (hcall : env.GetClusters { ContractId := env.contractId } = Except.ok r)
    (hne : r.Clusters.length ≠ 0) :
    tables (RunE env).trace = [printClusters env.localOffset (filterResponse r) env.long]
    ∧ (printClusters env.localOffset (filterResponse r) env.long).rows =
        (r.Clusters.filter fun c => decide (c.Status ≠ ClusterStatus.DELETED)).map
          (dataRow env.localOffset env.long)
    ∧ (printClusters env.localOffset (filterResponse r) env.long).rows.length =
        r.Clusters.countP fun c => decide (c.Status ≠ ClusterStatus.DELETED) := by
  have hrows : (printClusters env.localOffset (filterResponse r) env.long).rows =
      (r.Clusters.filter fun c => decide (c.Status ≠ ClusterStatus.DELETED)).map
        (dataRow env.localOffset env.long) := by
    rw [printClusters_eq, filterResponse_Clusters]
    rfl
  refine ⟨?_, hrows, ?_⟩
  · rw [RunE_call_ok env r hurl hdial hcall]
    cases hv : env.verbose <;> simp [tables, verboseDump, hv, hne]
  · rw [hrows, List.length_map, List.countP_eq_length_filter]

theorem RunE_table_rows_witness :
    (printClusters 0 (filterResponse threeClusters) false).rows =
        [dataRow 0 false (sampleCluster "a" (ClusterStatus.other 2)),
         dataRow 0 false (sampleCluster "c" (ClusterStatus.other 1))]
    ∧ (printClusters 0 (filterResponse threeClusters) false).rows.length = 2
    ∧ tables (RunE (sampleEnv false false (Except.ok threeClusters))).trace =
        [printClusters 0 (filterResponse threeClusters) false] :=
  have h := RunE_table_rows (sampleEnv false false (Except.ok threeClusters)) threeClusters
    (by decide) rfl rfl (by decide)
  ⟨h.2.1, h.2.2, h.1⟩

/-- C10: the no-cluster decision looks at the response before filtering: for every
successful response that is non-empty and whose clusters are all `DELETED`, the
handler does not print "No cluster exists for specified contract!"; it renders one
table, which has the header row and no data row. -/
theorem RunE_all_deleted (env : Env) (r : GetClustersResponse) (hurl : env.tksInfoUrl ≠ "")
    (hdial : env.Dial env.tksInfoUrl = Except.ok ())
    (hcall : env.GetClusters { ContractId := env.contractId } = Except.ok r)
    (hne : r.Clusters.length ≠ 0)
    (hdel : ∀ c ∈ r.Clusters, c.GetStatus = ClusterStatus.DELETED) :
    Event.println "No cluster exists for specified contract!" ∉ (RunE env).trace
    ∧ stdout (RunE env).trace =
        (if env.verbose then
          [Event.println "Proto Json data...",
           Event.printlnJson { ContractId := env.contractId }]
         else []) ++
        [Event.printlnTable (printClusters env.localOffset (filterResponse r) env.long)]
    ∧ (printClusters env.localOffset (filterResponse r) env.long).rowsHeader =
        [headerRow env.long]
    ∧ (printClusters env.localOffset (filterResponse r) env.long).rows = [] := by
  have hfil : r.Clusters.filter notDeleted = [] := by
    rw [List.filter_eq_nil_iff]
    intro c hc
    simp [notDeleted, hdel c hc]
  refine ⟨?_, ?_, ?_, ?_⟩
  · rw [RunE_call_ok env r hurl hdial hcall]
    cases hv : env.verbose <;> simp [verboseDump, hv, hne]
  · rw [RunE_call_ok env r hurl hdial hcall]
    cases hv : env.verbose <;> simp [stdout, verboseDump, hv, hne]
  · rw [printClusters_eq]
  · rw [printClusters_eq, filterResponse_Clusters, hfil]
    rfl

theorem RunE_all_deleted_witness :
    Event.println "No cluster exists for specified contract!" ∉
        (RunE (sampleEnv false false (Except.ok allDeleted))).trace
    ∧ stdout (RunE (sampleEnv false false (Except.ok allDeleted))).trace =
        [Event.printlnTable (printClusters 0 (filterResponse allDeleted) false)]
    ∧ (printClusters 0 (filterResponse allDeleted) false).rows = [] :=
  have h := RunE_all_deleted (sampleEnv false false (Except.ok allDeleted)) allDeleted
    (by decide) rfl rfl (by decide) (by decide)
  ⟨h.1, h.2.1, h.2.2.2⟩

/-! ## Properties of `parseTime` -/

theorem digitChar_isDigit (k : Nat) (h : k < 10) : (digitChar k).isDigit = true := by
  interval_cases k <;> decide

theorem digitLoop_last (fuel u : Nat) (buf : List Char) (h : u < 10) :
    digitLoop (fuel + 1) u buf = digitChar u :: buf := by
  have h1 : ¬ (u ≥ 10) := by omega
  simp [digitLoop, h1, digitChar]

theorem digitLoop_step (fuel u : Nat) (buf : List Char) (h : 10 ≤ u) :
    digitLoop (fuel + 1) u buf = digitLoop fuel (u / 10) (digitChar (u % 10) :: buf) := by
  have e1 : u - u / 10 * 10 = u % 10 := by omega
  simp [digitLoop, h, e1, digitChar]

theorem digitLoop_two (u : Nat) (h : u < 100) :
    List.replicate (2 - (digitLoop 20 u []).length) '0' ++ digitLoop 20 u [] =
      [digitChar (u / 10), digitChar (u % 10)] := by
  by_cases h10 : 10 ≤ u
  · rw [digitLoop_step _ _ _ h10, digitLoop_last _ _ _ (by omega)]
    rfl
  · have h0 : u / 10 = 0 := by omega
    have h2 : u % 10 = u := by omega
    rw [digitLoop_last _ _ _ (by omega), h0, h2]
    rfl

theorem digitLoop_four (u : Nat) (h : u < 10000) :
    List.replicate (4 - (digitLoop 20 u []).length) '0' ++ digitLoop 20 u [] =
      [digitChar (u / 1000), digitChar (u / 100 % 10), digitChar (u / 10 % 10),
       digitChar (u % 10)] := by
  have e4 : u / 10 / 10 / 10 = u / 1000 := by omega
  have e5 : u / 10 / 10 = u / 100 := by omega
  by_cases h10 : 10 ≤ u
  · rw [digitLoop_step _ _ _ h10]
    by_cases h100 : 10 ≤ u / 10
    · rw [digitLoop_step _ _ _ h100]
      by_cases h1000 : 10 ≤ u / 10 / 10
      · rw [digitLoop_step _ _ _ h1000, digitLoop_last _ _ _ (by omega), e4, e5]
        rfl
      · have z1 : u / 1000 = 0 := by omega
        have z2 : u / 100 % 10 = u / 10 / 10 := by omega
        rw [digitLoop_last _ _ _ (by omega), z1, z2]
        rfl
    · have z1 : u / 1000 = 0 := by omega
      have z2 : u / 100 % 10 = 0 := by omega
      have z3 : u / 10 % 10 = u / 10 := by omega
      rw [digitLoop_last _ _ _ (by omega), z1, z2, z3]
      rfl
  · have z1 : u / 1000 = 0 := by omega
    have z2 : u / 100 % 10 = 0 := by omega
    have z3 : u / 10 % 10 = 0 := by omega
    have z4 : u % 10 = u := by omega
    rw [digitLoop_last _ _ _ (by omega), z1, z2, z3, z4]
    rfl

theorem appendInt_two (b : List Char) (x : Nat) (h : x < 100) :
    appendInt b (x : Int) 2 = b ++ [digitChar (x / 10), digitChar (x % 10)] := by
  have hneg : ¬ ((x : Int) < 0) := by omega
  unfold appendInt
  simp only [hneg, if_false, Int.natAbs_ofNat, List.append_assoc, digitLoop_two x h]

theorem appendInt_four (b : List Char) (x : Int) (h0 : 0 ≤ x) (h : x ≤ 9999) :
    appendInt b x 4 =
      b ++ [digitChar (x.toNat / 1000), digitChar (x.toNat / 100 % 10),
            digitChar (x.toNat / 10 % 10), digitChar (x.toNat % 10)] := by
  obtain ⟨n, rfl⟩ := Int.eq_ofNat_of_zero_le h0
  have hn : n < 10000 := by omega
  have hneg : ¬ ((n : Int) < 0) := by omega
  unfold appendInt
  simp only [hneg, if_false, Int.natAbs_ofNat, Int.toNat_ofNat, List.append_assoc,
    digitLoop_four n hn]

theorem absClock_lt (abs : Nat) :
    (absClock abs).1 < 24 ∧ (absClock abs).2.1 < 60 ∧ (absClock abs).2.2 < 60 := by
  simp only [absClock, secondsPerDay, secondsPerHour, secondsPerMinute]
  omega

theorem absYearDay_yday_le (abs : Nat) : (absYearDay abs).2 ≤ 365 := by
  simp only [absYearDay, secondsPerDay, secondsPerHour, secondsPerMinute, daysPer400Years,
    daysPer100Years, daysPer4Years]
  omega

theorem absYearDay_year (abs : Nat) :
    (absYearDay abs).1 =
      ((400 * (abs / 86400 / 146097)
        + cycleYears (abs / 86400 - 146097 * (abs / 86400 / 146097)) : Nat) : Int)
      + absoluteZeroYear := by
  simp only [absYearDay, cycleYears, secondsPerDay, secondsPerHour, secondsPerMinute,
    daysPer400Years, daysPer100Years, daysPer4Years, Nat.reduceMul, Nat.reduceAdd]
  omega

/-- The last year of a 400-year cycle starts on day 145731 of the cycle. -/
theorem cycleYears_bound (d : Nat) (h : d < 146097) :
    (d < 145731 → cycleYears d ≤ 398) ∧ (145731 ≤ d → cycleYears d = 399) := by
  have hn2 : d / 36524 ≤ 4 := by omega
  unfold cycleYears
  generalize hn : d / 36524 = n2 at *
  interval_cases n2
  all_goals (constructor <;> intro h1 <;> omega)

/-- The absolute seconds of 0000-01-01 00:00:00 UTC and of 9999-12-31 23:59:59 UTC
bound the instants whose year has four digits. -/
theorem absYearDay_year_range (abs : Nat) (hlo : 9223371966548102400 ≤ abs)
    (hhi : abs ≤ 9223372282117622399) :
    0 ≤ (absYearDay abs).1 ∧ (absYearDay abs).1 ≤ 9999 := by
  rw [absYearDay_year]
  have hb := cycleYears_bound (abs / 86400 - 146097 * (abs / 86400 / 146097)) (by omega)
  generalize cycleYears (abs / 86400 - 146097 * (abs / 86400 / 146097)) = c at *
  simp only [absoluteZeroYear]
  omega

theorem monthDay_le (year : Int) (yday : Nat) (h : yday ≤ 365) :
    (monthDay year yday).1 ≤ 13 ∧ (monthDay year yday).2 ≤ 31 := by
  unfold monthDay
  split
  · simp
  · generalize hday : (if isLeap year = true ∧ yday > 31 + 29 - 1 then yday - 1 else yday) = day
    have hle : day ≤ 365 := by
      rw [← hday]
      split <;> omega
    have hm : day / 31 ≤ 11 := by omega
    generalize hmonth : day / 31 = month at hm
    interval_cases month <;> simp only [hmonth, daysBefore, List.getD_cons_succ,
      List.getD_cons_zero, Nat.reduceAdd] <;> split <;> simp only <;> omega

/-- The absolute seconds of a time in UTC whose Unix seconds lie between
0000-01-01 00:00:00 and 9999-12-31 23:59:59. -/
theorem abs_of_UTC (localOffset : Int) (t : Time) (hloc : t.loc = Location.UTC)
    (hlo : -62167219200 ≤ t.unixSec) (hhi : t.unixSec ≤ 253402300799) :
    9223371966548102400 ≤ t.abs localOffset ∧ t.abs localOffset ≤ 9223372282117622399 := by
  unfold Time.abs
  simp only [hloc, ne_eq, not_true_eq_false, if_false, toUint64, unixToInternal,
    internalToAbsolute]
  omega

theorem Format_eq (localOffset : Int) (t : Time)
    (hlo : 9223371966548102400 ≤ t.abs localOffset)
    (hhi : t.abs localOffset ≤ 9223372282117622399) :
    t.Format localOffset =
      String.mk
        [digitChar ((absDate (t.abs localOffset)).1.toNat / 1000),
         digitChar ((absDate (t.abs localOffset)).1.toNat / 100 % 10),
         digitChar ((absDate (t.abs localOffset)).1.toNat / 10 % 10),
         digitChar ((absDate (t.abs localOffset)).1.toNat % 10), '-',
         digitChar ((absDate (t.abs localOffset)).2.1 / 10),
         digitChar ((absDate (t.abs localOffset)).2.1 % 10), '-',
         digitChar ((absDate (t.abs localOffset)).2.2 / 10),
         digitChar ((absDate (t.abs localOffset)).2.2 % 10), ' ',
         digitChar ((absClock (t.abs localOffset)).1 / 10),
         digitChar ((absClock (t.abs localOffset)).1 % 10), ':',
         digitChar ((absClock (t.abs localOffset)).2.1 / 10),
         digitChar ((absClock (t.abs localOffset)).2.1 % 10), ':',
         digitChar ((absClock (t.abs localOffset)).2.2 / 10),
         digitChar ((absClock (t.abs localOffset)).2.2 % 10)] := by
  have hy := absYearDay_year_range _ hlo hhi
  have hmd := monthDay_le (absYearDay (t.abs localOffset)).1 (absYearDay (t.abs localOffset)).2
    (absYearDay_yday_le _)
  have hc := absClock_lt (t.abs localOffset)
  have hy0 : 0 ≤ (absDate (t.abs localOffset)).1 := hy.1
  have hy1 : (absDate (t.abs localOffset)).1 ≤ 9999 := hy.2
  have hm : (absDate (t.abs localOffset)).2.1 < 100 := by
    have : (absDate (t.abs localOffset)).2.1 ≤ 13 := hmd.1
    omega
  have hd : (absDate (t.abs localOffset)).2.2 < 100 := by
    have : (absDate (t.abs localOffset)).2.2 ≤ 31 := hmd.2
    omega
  unfold Time.Format
  simp only [layout, List.foldl, appendChunk, List.append_nil, List.nil_append]
  rw [appendInt_four _ _ hy0 hy1, appendInt_two _ _ hm, appendInt_two _ _ hd,
    appendInt_two _ _ (by omega : (absClock (t.abs localOffset)).1 < 100),
    appendInt_two _ _ (by omega : (absClock (t.abs localOffset)).2.1 < 100),
    appendInt_two _ _ (by omega : (absClock (t.abs localOffset)).2.2 < 100)]
  simp

/-- The model against the calendar: the epoch, an instant of 2022 (also seen from a
zone one hour east, which changes nothing), a leap day, a carry from negative
nanoseconds, and the last second before year 0. -/
theorem parseTime_known_instants :
    parseTime 0 none = "1970-01-01 00:00:00"
    ∧ parseTime 0 (some { Seconds := 1667563200, Nanos := 0 }) = "2022-11-04 12:00:00"
    ∧ parseTime 3600 (some { Seconds := 1667563200, Nanos := 0 }) = "2022-11-04 12:00:00"
    ∧ parseTime 0 (some { Seconds := 951782400, Nanos := 0 }) = "2000-02-29 00:00:00"
    ∧ parseTime 0 (some { Seconds := 1709251199, Nanos := -1 }) = "2024-02-29 23:59:58"
    ∧ parseTime 0 (some { Seconds := 253402300799, Nanos := 999999999 }) =
        "9999-12-31 23:59:59"
    ∧ parseTime 0 (some { Seconds := -62167219200, Nanos := 0 }) = "0000-01-01 00:00:00"
    ∧ parseTime 0 (some { Seconds := -62167219201, Nanos := 0 }) = "-0001-12-31 23:59:59" := by
  decide

theorem AsTime_loc (t : Option Timestamp) : (Timestamp.AsTime t).loc = Location.UTC := rfl

/-- C5 as stated fails: the timestamp of 10000-01-01 00:00:00 UTC is rendered with a
five-digit year, in 20 characters. -/
theorem parseTime_year_10000 :
    parseTime 0 (some { Seconds := 253402300800, Nanos := 0 }) = "10000-01-01 00:00:00"
    ∧ (parseTime 0 (some { Seconds := 253402300800, Nanos := 0 })).length = 20
    ∧ (parseTime 0 (some { Seconds := 253402300800, Nanos := 0 })).length ≠ 19
    ∧ isTimePattern (parseTime 0 (some { Seconds := 253402300800, Nanos := 0 })) = false := by
  decide

/-- C5, amended: `parseTime` is a function of the timestamp, and for every timestamp
whose instant lies between 0000-01-01 00:00:00 UTC and 9999-12-31 23:59:59 UTC (Unix
seconds -62167219200 to 253402300799; this covers the epoch value, an absent
timestamp and every timestamp in the valid range of the wire format) the result has
exactly 19 characters in the pattern `YYYY-MM-DD HH:MM:SS`. -/
theorem parseTime_pattern (localOffset : Int) (t : Option Timestamp)
    (hlo : -62167219200 ≤ (Timestamp.AsTime t).unixSec)
    (hhi : (Timestamp.AsTime t).unixSec ≤ 253402300799) :
    (parseTime localOffset t).length = 19 ∧ isTimePattern (parseTime localOffset t) = true := by
  have habs := abs_of_UTC localOffset (Timestamp.AsTime t) (AsTime_loc t) hlo hhi
  have hc := absClock_lt ((Timestamp.AsTime t).abs localOffset)
  have hmd := monthDay_le (absYearDay ((Timestamp.AsTime t).abs localOffset)).1
    (absYearDay ((Timestamp.AsTime t).abs localOffset)).2 (absYearDay_yday_le _)
  have hm : (absDate ((Timestamp.AsTime t).abs localOffset)).2.1 ≤ 13 := hmd.1
  have hd : (absDate ((Timestamp.AsTime t).abs localOffset)).2.2 ≤ 31 := hmd.2
  have hy : (absDate ((Timestamp.AsTime t).abs localOffset)).1 ≤ 9999 :=
    (absYearDay_year_range _ habs.1 habs.2).2
  have hy0 : 0 ≤ (absDate ((Timestamp.AsTime t).abs localOffset)).1 :=
    (absYearDay_year_range _ habs.1 habs.2).1
  unfold parseTime
  rw [Format_eq localOffset _ habs.1 habs.2]
  refine ⟨rfl, ?_⟩
  simp only [isTimePattern, Bool.and_eq_true, beq_self_eq_true, and_true]
  refine ⟨⟨⟨⟨⟨⟨⟨⟨⟨⟨⟨⟨⟨?_, ?_⟩, ?_⟩, ?_⟩, ?_⟩, ?_⟩, ?_⟩, ?_⟩, ?_⟩, ?_⟩, ?_⟩, ?_⟩, ?_⟩, ?_⟩ <;>
    apply digitChar_isDigit <;> omega

theorem parseTime_pattern_witness :
    (parseTime 32400 none).length = 19 ∧ isTimePattern (parseTime 32400 none) = true :=
  parseTime_pattern 32400 none (by decide) (by decide)

/-- Every timestamp in the valid range of the wire format (0001-01-01 00:00:00 to
9999-12-31 23:59:59 UTC, nanoseconds within the second) meets the range condition of
`parseTime_pattern`. -/
theorem valid_timestamp_in_range (x : Timestamp) (hs0 : -62135596800 ≤ x.Seconds)
    (hs1 : x.Seconds ≤ 253402300799) (hn0 : 0 ≤ x.Nanos) (hn1 : x.Nanos < 1000000000) :
    -62167219200 ≤ (Timestamp.AsTime (some x)).unixSec
    ∧ (Timestamp.AsTime (some x)).unixSec ≤ 253402300799 := by
  have hn : ¬ (x.Nanos < 0 ∨ x.Nanos ≥ 1000000000) := by omega
  simp only [Timestamp.AsTime, Timestamp.GetSeconds, Timestamp.GetNanos, Unix, hn, if_false,
    Time.UTC, Time.unixSec, unixTime, wrapInt64, unixToInternal, internalToUnix]
  omega

/-- The rendering of a time depends on its absolute seconds only. -/
theorem Format_congr (d d' : Int) (t t' : Time) (h : t.abs d = t'.abs d') :
    t.Format d = t'.Format d' := by
  unfold Time.Format
  rw [h]

/-! ### The calendar of the formatter against the civil calendar -/

theorem daysToYear_1970 : daysToYear 1970 = 0 := by decide

/-- From one January 1 to the next there are as many days as the year has. -/
theorem daysToYear_succ (y : Int) : daysToYear (y + 1) = daysToYear y + daysInYear y := by
  unfold daysToYear daysInYear leapYear
  by_cases h4 : y % 4 = 0 <;> by_cases h100 : y % 100 = 0 <;> by_cases h400 : y % 400 = 0 <;>
    simp [h4, h100, h400] <;> omega

theorem digitLoop_eq_decimal (fuel u : Nat) (buf : List Char) (h : u < 10 ^ fuel) (hf : 0 < fuel) :
    digitLoop fuel u buf = decimal u ++ buf := by
  induction fuel generalizing u buf with
  | zero => omega
  | succ f ih =>
    by_cases h10 : 10 ≤ u
    · have hf0 : 0 < f := by
        rcases Nat.eq_zero_or_pos f with h0 | h0
        · subst h0
          simp at h
          omega
        · exact h0
      have hu : u / 10 < 10 ^ f := by
        rw [pow_succ] at h
        omega
      rw [digitLoop_step _ _ _ h10, ih _ _ hu hf0]
      have hne : u ≠ 0 := by omega
      have hne2 : u / 10 ≠ 0 := by omega
      have hd : Nat.digits 10 u = u % 10 :: Nat.digits 10 (u / 10) :=
        Nat.digits_def' (by norm_num) (by omega)
      simp [decimal, hne, hne2, hd]
    · rw [digitLoop_last _ _ _ (by omega)]
      by_cases h0 : u = 0
      · subst h0
        simp [decimal, digitChar]
      · have hd : Nat.digits 10 u = [u] := Nat.digits_of_lt 10 u h0 (by omega)
        simp [decimal, h0, hd]

theorem appendInt_eq_padded (b : List Char) (x : Int) (width : Nat)
    (h : x.natAbs < 10 ^ 20) : appendInt b x width = b ++ padded width x := by
  have hd := digitLoop_eq_decimal 20 x.natAbs [] h (by norm_num)
  rw [List.append_nil] at hd
  simp only [appendInt, padded, hd]
  by_cases hx : x < 0 <;> simp [hx]

theorem absYearDay_yday (abs : Nat) :
    (absYearDay abs).2 = cycleYday (abs / 86400 - 146097 * (abs / 86400 / 146097)) := by
  simp only [absYearDay, cycleYday, secondsPerDay, secondsPerHour, secondsPerMinute,
    daysPer400Years, daysPer100Years, daysPer4Years, Nat.reduceMul, Nat.reduceAdd]

/-- Inside a 400-year cycle the years counted and the day of the year add up to the
day of the cycle, and the day of the year is below the length of its year. -/
theorem cycle_civil (d : Nat) (h : d < 146097) :
    cycleYears d ≤ 399
    ∧ 365 * cycleYears d + cycleYears d / 4 - cycleYears d / 100 + cycleYday d = d
    ∧ cycleYears d / 100 ≤ cycleYears d / 4
    ∧ (cycleYday d ≤ 365)
    ∧ (cycleYday d = 365 →
        (cycleYears d + 1) % 4 = 0 ∧ ((cycleYears d + 1) % 100 ≠ 0 ∨ cycleYears d = 399)) := by
  unfold cycleYears cycleYday
  have ha : d / 36524 - d / 36524 / 4 ≤ 3 ∧ 36524 * (d / 36524 - d / 36524 / 4) ≤ d
      ∧ (d - 36524 * (d / 36524 - d / 36524 / 4) ≤ 36523
        ∨ (d / 36524 - d / 36524 / 4 = 3
          ∧ d - 36524 * (d / 36524 - d / 36524 / 4) ≤ 36524)) := by omega
  generalize d / 36524 - d / 36524 / 4 = a at *
  obtain ⟨ha3, had, ha2⟩ := ha
  obtain ⟨d2, rfl⟩ : ∃ d2, d = 36524 * a + d2 := ⟨d - 36524 * a, by omega⟩
  simp only [Nat.add_sub_cancel_left] at *
  have hb : d2 / 1461 ≤ 24 ∧ 1461 * (d2 / 1461) ≤ d2
      ∧ d2 - 1461 * (d2 / 1461) ≤ 1460
      ∧ (d2 / 1461 = 24 → a < 3 → d2 - 1461 * (d2 / 1461) ≤ 1459) := by omega
  generalize d2 / 1461 = n3 at *
  obtain ⟨hn3, hbd, hd3, hlast⟩ := hb
  obtain ⟨d3, rfl⟩ : ∃ d3, d2 = 1461 * n3 + d3 := ⟨d2 - 1461 * n3, by omega⟩
  simp only [Nat.add_sub_cancel_left] at *
  have hc : d3 / 365 - d3 / 365 / 4 ≤ 3 ∧ 365 * (d3 / 365 - d3 / 365 / 4) ≤ d3
      ∧ d3 - 365 * (d3 / 365 - d3 / 365 / 4) ≤ 365
      ∧ (d3 - 365 * (d3 / 365 - d3 / 365 / 4) = 365 →
          d3 = 1460 ∧ d3 / 365 - d3 / 365 / 4 = 3) := by omega
  generalize d3 / 365 - d3 / 365 / 4 = n4 at *
  obtain ⟨hn4, hcd, hyd, hfull⟩ := hc
  have hq4 : (100 * a + 4 * n3 + n4) / 4 = 25 * a + n3 := by omega
  have hq100 : (100 * a + 4 * n3 + n4) / 100 = a := by omega
  rw [hq4, hq100]
  refine ⟨by omega, by omega, by omega, by omega, ?_⟩
  intro h365
  obtain ⟨h1460, hn43⟩ := hfull h365
  subst hn43
  subst h1460
  have hcase : n3 < 24 ∨ a = 3 := by
    by_contra hcon
    have h24 : n3 = 24 := by omega
    have := hlast h24 (by omega)
    omega
  omega

/-- The year and the day of the year of `absYearDay` are those of the civil calendar:
the day of the year is within the year, and counted from January 1 of the year it
is the day that many whole days after 1970-01-01. -/
theorem absYearDay_civil (abs : Nat) :
    daysToYear (absYearDay abs).1 + ((absYearDay abs).2 : Int) =
        ((abs : Int) - 9223372028715321600) / 86400
    ∧ (absYearDay abs).2 < daysInYear (absYearDay abs).1 := by
  rw [absYearDay_year, absYearDay_yday]
  have hc := cycle_civil (abs / 86400 - 146097 * (abs / 86400 / 146097)) (by omega)
  have hD : abs / 86400 = 146097 * (abs / 86400 / 146097)
      + (abs / 86400 - 146097 * (abs / 86400 / 146097)) := by omega
  generalize cycleYears (abs / 86400 - 146097 * (abs / 86400 / 146097)) = c at *
  generalize cycleYday (abs / 86400 - 146097 * (abs / 86400 / 146097)) = yd at *
  generalize abs / 86400 - 146097 * (abs / 86400 / 146097) = d1 at *
  obtain ⟨hc399, hsum, hle, hyd, hfull⟩ := hc
  have hq4 : c / 4 ≤ 99 := by omega
  generalize abs / 86400 / 146097 = n1 at *
  obtain ⟨k, hk0⟩ : ∃ k : Int, k = (n1 : Int) - 730692556 := ⟨_, rfl⟩
  have hy : (((400 * n1 + c : Nat) : Int) + absoluteZeroYear) = 400 * k + (c : Int) + 1 := by
    simp only [absoluteZeroYear]
    omega
  rw [hy]
  have hi : ((abs : Int) - 9223372028715321600) / 86400
      = ((abs / 86400 : Nat) : Int) - 106751991073094 := by omega
  have hj : (400 * k + (c : Int) + 1 - 1) / 4 = 100 * k + ((c / 4 : Nat) : Int) := by omega
  have hk : (400 * k + (c : Int) + 1 - 1) / 100 = 4 * k + ((c / 100 : Nat) : Int) := by omega
  have hl : (400 * k + (c : Int) + 1 - 1) / 400 = k := by omega
  constructor
  · simp only [daysToYear]
    rw [hi, hj, hk, hl]
    omega
  · by_cases h365 : yd = 365
    · obtain ⟨h4, h100⟩ := hfull h365
      have hleap : leapYear (400 * k + (c : Int) + 1) = true := by
        simp only [leapYear, decide_eq_true_eq]
        omega
      simp only [daysInYear, hleap, if_true]
      omega
    · simp only [daysInYear]
      split <;> omega

theorem isLeap_eq_leapYear (y : Int) : isLeap y = leapYear y := rfl

/-- The days before each month and the length of each month, by the leap flag of the
year. -/
theorem month_table (y : Int) (m : Nat) (h1 : 1 ≤ m) (h12 : m ≤ 12) :
    daysToMonth y m =
        [0, 31, 59, 90, 120, 151, 181, 212, 243, 273, 304, 334].getD (m - 1) 0
          + (if leapYear y = true ∧ 2 < m then 1 else 0)
    ∧ daysInMonth y m =
        [31, 28, 31, 30, 31, 30, 31, 31, 30, 31, 30, 31].getD (m - 1) 0
          + (if leapYear y = true ∧ m = 2 then 1 else 0) := by
  simp only [daysToMonth, daysInMonth]
  generalize leapYear y = b
  interval_cases m <;> cases b <;> decide

/-- The month and the day of the month of `monthDay` are those of the civil calendar. -/
theorem monthDay_civil (year : Int) (yday : Nat) (h : yday < daysInYear year) :
    1 ≤ (monthDay year yday).1 ∧ (monthDay year yday).1 ≤ 12
    ∧ 1 ≤ (monthDay year yday).2
    ∧ (monthDay year yday).2 ≤ daysInMonth year (monthDay year yday).1
    ∧ daysToMonth year (monthDay year yday).1 + ((monthDay year yday).2 - 1) = yday := by
  have key : ∀ m dd : Nat, 1 ≤ m → m ≤ 12 → 1 ≤ dd →
      dd ≤ [31, 28, 31, 30, 31, 30, 31, 31, 30, 31, 30, 31].getD (m - 1) 0
          + (if leapYear year = true ∧ m = 2 then 1 else 0) →
      [0, 31, 59, 90, 120, 151, 181, 212, 243, 273, 304, 334].getD (m - 1) 0
          + (if leapYear year = true ∧ 2 < m then 1 else 0) + (dd - 1) = yday →
      1 ≤ m ∧ m ≤ 12 ∧ 1 ≤ dd ∧ dd ≤ daysInMonth year m
        ∧ daysToMonth year m + (dd - 1) = yday := by
    intro m dd h1 h12 hd1 hd2 hsum
    obtain ⟨e1, e2⟩ := month_table year m h1 h12
    rw [e1, e2]
    exact ⟨h1, h12, hd1, hd2, hsum⟩
  unfold monthDay
  simp only [isLeap_eq_leapYear]
  unfold daysInYear at h
  by_cases hl' : leapYear year = true
  swap
  · have hl : leapYear year = false := by simpa using hl'
    simp only [hl, Bool.false_eq_true, false_and, if_false] at h ⊢
    have hm : yday / 31 ≤ 11 := by omega
    generalize hmonth : yday / 31 = month at hm
    interval_cases month <;> simp only [hmonth, daysBefore, List.getD_cons_succ,
      List.getD_cons_zero, Nat.reduceAdd] <;> split <;> apply key <;>
      simp [hl] <;> omega
  · have hl : leapYear year = true := hl'
    simp only [hl, true_and, if_true] at h ⊢
    split
    · apply key <;> simp [hl]
      omega
    · generalize hday : (if yday > 31 + 29 - 1 then yday - 1 else yday) = day
      have hle : day ≤ 364 ∧ (yday ≤ 58 ∧ day = yday ∨ 60 ≤ yday ∧ day + 1 = yday) := by
        rw [← hday]
        split <;> omega
      have hm : day / 31 ≤ 11 := by omega
      generalize hmonth : day / 31 = month at hm
      interval_cases month <;> simp only [hmonth, daysBefore, List.getD_cons_succ,
        List.getD_cons_zero, Nat.reduceAdd] <;> split <;> apply key <;>
        simp [hl] <;> omega

/-- The clock of `absClock` is the time of day of the civil calendar. -/
theorem absClock_civil (abs : Nat) :
    (absClock abs).1 = (((abs : Int) - 9223372028715321600) % 86400 / 3600).toNat
    ∧ (absClock abs).2.1 = (((abs : Int) - 9223372028715321600) % 3600 / 60).toNat
    ∧ (absClock abs).2.2 = (((abs : Int) - 9223372028715321600) % 60).toNat := by
  simp only [absClock, secondsPerDay, secondsPerHour, secondsPerMinute]
  omega

/-- The text written by `Time.Format` is the civil date and time of day of the
absolute seconds it is computed from. -/
theorem Format_civil (localOffset : Int) (t : Time)
    (hlt : t.abs localOffset < 18446744073709551616) :
    IsUtcRendering ((t.abs localOffset : Int) - 9223372028715321600) (t.Format localOffset) := by
  unfold Time.Format
  generalize t.abs localOffset = abs at *
  obtain ⟨hyd, hylen⟩ := absYearDay_civil abs
  obtain ⟨hm1, hm12, hd1, hdm, hsum⟩ := monthDay_civil _ _ hylen
  obtain ⟨hh, hmi, hs⟩ := absClock_civil abs
  have hc := absClock_lt abs
  have hday : (monthDay (absYearDay abs).1 (absYearDay abs).2).2 ≤ 31 := by
    have hle : daysInMonth (absYearDay abs).1
        (monthDay (absYearDay abs).1 (absYearDay abs).2).1 ≤ 31 := by
      unfold daysInMonth
      split_ifs <;> omega
    omega
  have hyear : (absYearDay abs).1.natAbs < 10 ^ 20 := by
    have hb := (cycle_civil (abs / 86400 - 146097 * (abs / 86400 / 146097)) (by omega)).1
    rw [absYearDay_year]
    generalize cycleYears (abs / 86400 - 146097 * (abs / 86400 / 146097)) = c at *
    simp only [absoluteZeroYear]
    omega
  refine ⟨(absYearDay abs).1, (monthDay (absYearDay abs).1 (absYearDay abs).2).1,
    (monthDay (absYearDay abs).1 (absYearDay abs).2).2, hm1, hm12, hd1, hdm, ?_, ?_⟩
  · unfold civilDay
    omega
  · rw [← hh, ← hmi, ← hs]
    simp only [layout, List.foldl, appendChunk, absDate, List.append_nil, List.nil_append]
    rw [appendInt_eq_padded _ _ _ hyear,
      appendInt_eq_padded _ _ _ (by omega), appendInt_eq_padded _ _ _ (by omega),
      appendInt_eq_padded _ _ _ (by omega), appendInt_eq_padded _ _ _ (by omega),
      appendInt_eq_padded _ _ _ (by omega)]
    simp [civilText]

/-- The truncating quotient by a billion in terms of the flooring one. -/
theorem tdiv_billion (n : Int) :
    Int.tdiv n 1000000000 = if 0 ≤ n then n / 1000000000 else -((-n) / 1000000000) := by
  split
  · exact Int.tdiv_eq_ediv (by assumption) (by norm_num)
  · have h := Int.neg_tdiv (-n) 1000000000
    rw [Int.neg_neg] at h
    rw [h, Int.tdiv_eq_ediv (by omega) (by norm_num)]

/-- The time `AsTime` returns counts the whole seconds of the instant, up to `int64`
wrap-around. -/
theorem AsTime_unixSec (t : Option Timestamp) :
    (Timestamp.AsTime t).unixSec = wrapInt64 (instantSeconds t) := by
  cases t with
  | none => decide
  | some x =>
    simp only [Timestamp.AsTime, Timestamp.GetSeconds, Timestamp.GetNanos, instantSeconds, Unix,
      Time.UTC, unixTime, tdiv_billion]
    generalize x.Seconds = sec
    generalize x.Nanos = nsec
    by_cases hn : nsec < 0 ∨ nsec ≥ 1000000000
    · simp only [hn, if_true]
      by_cases h0 : 0 ≤ nsec
      · simp only [h0, if_true]
        split <;> simp only [Time.unixSec, wrapInt64, unixToInternal, internalToUnix] <;> omega
      · simp only [h0, if_false]
        split <;> simp only [Time.unixSec, wrapInt64, unixToInternal, internalToUnix] <;> omega
    · simp only [hn, if_false, Time.unixSec, wrapInt64, unixToInternal, internalToUnix]
      omega

/-- The absolute seconds of the time `AsTime` returns, for an instant that is not
before the zero of the absolute scale and whose seconds fit in an `int64`. -/
theorem AsTime_abs (d : Int) (t : Option Timestamp)
    (hlo : -9223372028715321600 ≤ instantSeconds t)
    (hhi : instantSeconds t ≤ 9223372036854775807) :
    (((Timestamp.AsTime t).abs d : Nat) : Int) - 9223372028715321600 = instantSeconds t
    ∧ (Timestamp.AsTime t).abs d < 18446744073709551616 := by
  have hu := AsTime_unixSec t
  unfold Time.abs
  simp only [AsTime_loc, ne_eq, not_true_eq_false, if_false, hu, toUint64, wrapInt64,
    unixToInternal, internalToAbsolute]
  omega

/-! ### A date is determined by its day number -/

theorem daysToYear_mono (a b : Int) (h : a ≤ b) : daysToYear a ≤ daysToYear b := by
  unfold daysToYear
  omega

theorem yearOffset_lt (y : Int) (m dd : Nat) (h1 : 1 ≤ m) (h12 : m ≤ 12) (hd1 : 1 ≤ dd)
    (hd : dd ≤ daysInMonth y m) : daysToMonth y m + (dd - 1) < daysInYear y := by
  obtain ⟨e1, e2⟩ := month_table y m h1 h12
  rw [e1]
  rw [e2] at hd
  unfold daysInYear
  generalize leapYear y = b at *
  interval_cases m <;> cases b <;> simp at hd ⊢ <;> omega

theorem month_of_offset (y : Int) (m dd : Nat) (h1 : 1 ≤ m) (h12 : m ≤ 12) (hd1 : 1 ≤ dd)
    (hd : dd ≤ daysInMonth y m) :
    m = monthOfOffset (leapYear y) (daysToMonth y m + (dd - 1)) := by
  obtain ⟨e1, e2⟩ := month_table y m h1 h12
  rw [e1]
  rw [e2] at hd
  generalize leapYear y = b at *
  interval_cases m <;> cases b <;>
    simp only [List.getD_cons_succ, List.getD_cons_zero, Nat.reduceSub, Nat.reduceAdd,
      Nat.reduceLT, Nat.reduceEqDiff, Bool.false_eq_true, false_and, true_and, and_true,
      and_false, if_true, if_false, Nat.add_zero, Nat.zero_add, OfNat.ofNat_ne_one,
      Nat.succ_ne_self, monthOfOffset] at hd ⊢ <;>
    repeat (first | rw [if_pos (by omega)] | rw [if_neg (by omega)])

theorem monthOffset_injective (y : Int) (m dd m' dd' : Nat) (h1 : 1 ≤ m) (h12 : m ≤ 12)
    (hd1 : 1 ≤ dd) (hd : dd ≤ daysInMonth y m) (h1' : 1 ≤ m') (h12' : m' ≤ 12)
    (hd1' : 1 ≤ dd') (hd' : dd' ≤ daysInMonth y m')
    (h : daysToMonth y m + (dd - 1) = daysToMonth y m' + (dd' - 1)) : m = m' ∧ dd = dd' := by
  have e := month_of_offset y m dd h1 h12 hd1 hd
  have e' := month_of_offset y m' dd' h1' h12' hd1' hd'
  rw [h] at e
  have hm : m = m' := e.trans e'.symm
  subst hm
  exact ⟨rfl, by omega⟩

/-- Two dates of the calendar with the same day number are the same date. -/
theorem civilDay_injective (y y' : Int) (m dd m' dd' : Nat) (h1 : 1 ≤ m) (h12 : m ≤ 12)
    (hd1 : 1 ≤ dd) (hd : dd ≤ daysInMonth y m) (h1' : 1 ≤ m') (h12' : m' ≤ 12)
    (hd1' : 1 ≤ dd') (hd' : dd' ≤ daysInMonth y' m')
    (h : civilDay y m dd = civilDay y' m' dd') : y = y' ∧ m = m' ∧ dd = dd' := by
  have ho := yearOffset_lt y m dd h1 h12 hd1 hd
  have ho' := yearOffset_lt y' m' dd' h1' h12' hd1' hd'
  have hs := daysToYear_succ y
  have hs' := daysToYear_succ y'
  unfold civilDay at h
  have hy : y = y' := by
    rcases lt_trichotomy y y' with hlt | heq | hgt
    · have := daysToYear_mono (y + 1) y' (by omega)
      omega
    · exact heq
    · have := daysToYear_mono (y' + 1) y (by omega)
      omega
  subst hy
  have := monthOffset_injective y m dd m' dd' h1 h12 hd1 hd h1' h12' hd1' hd' (by omega)
  exact ⟨rfl, this⟩

/-- An instant has one UTC rendering. -/
theorem IsUtcRendering_unique (s : Int) (a b : String) (ha : IsUtcRendering s a)
    (hb : IsUtcRendering s b) : a = b := by
  obtain ⟨y, m, dd, h1, h12, hd1, hd, hday, rfl⟩ := ha
  obtain ⟨y', m', dd', h1', h12', hd1', hd', hday', rfl⟩ := hb
  obtain ⟨rfl, rfl, rfl⟩ :=
    civilDay_injective y y' m dd m' dd' h1 h12 hd1 hd h1' h12' hd1' hd' (by rw [hday, hday'])
  rfl

/-- The vocabulary on known dates: 2022-11-04 is day 19300 after 1970-01-01, the leap
day of 2000 is day 11016, and the text of a date is written as expected. -/
theorem civil_known_dates :
    civilDay 1970 1 1 = 0 ∧ civilDay 2022 11 4 = 19300 ∧ civilDay 2000 2 29 = 11016
    ∧ civilDay 1969 12 31 = -1 ∧ civilDay 1 1 1 = -719162
    ∧ civilText 2022 11 4 12 0 0 = "2022-11-04 12:00:00"
    ∧ civilText (-1) 12 31 23 59 59 = "-0001-12-31 23:59:59" := by
  refine ⟨by decide, by decide, by decide, by decide, by decide, ?_, ?_⟩
  · simp [civilText, padded, decimal, digitChar]
  · simp [civilText, padded, decimal, digitChar]

/-! ### `parseTime` renders UTC -/

/-- A `time.Time` that is left in the local location is rendered in local time. -/
theorem Format_Local (d s : Int) (hlo : -9223372028715321600 ≤ s + d)
    (hhi : s + d ≤ 9223372036854775807) : IsLocalRendering d s ((Unix s 0).Format d) := by
  have habs : (((Unix s 0).abs d : Nat) : Int) - 9223372028715321600 = s + d
      ∧ (Unix s 0).abs d < 18446744073709551616 := by
    simp only [Unix, Time.abs, Time.unixSec, unixTime, wrapInt64, toUint64, unixToInternal,
      internalToUnix, internalToAbsolute]
    simp
    omega
  have h := Format_civil d (Unix s 0) habs.2
  rw [habs.1] at h
  exact h

/-- C6 as stated fails: in a process whose local zone is one hour east of UTC, the
epoch timestamp is rendered as 1970-01-01 00:00:00, which is not the date and time
of that instant in the local zone, 1970-01-01 01:00:00. -/
theorem parseTime_not_local :
    parseTime 3600 (some { Seconds := 0, Nanos := 0 }) = "1970-01-01 00:00:00"
    ∧ IsLocalRendering 3600 0 "1970-01-01 01:00:00"
    ∧ ¬ IsLocalRendering 3600 0 (parseTime 3600 (some { Seconds := 0, Nanos := 0 })) := by
  have hp : parseTime 3600 (some { Seconds := 0, Nanos := 0 }) = "1970-01-01 00:00:00" := by
    decide
  have hl : IsLocalRendering 3600 0 "1970-01-01 01:00:00" := by
    have h := Format_Local 3600 0 (by decide) (by decide)
    have e : (Unix 0 0).Format 3600 = "1970-01-01 01:00:00" := by decide
    rw [e] at h
    exact h
  refine ⟨hp, hl, ?_⟩
  intro h
  rw [hp] at h
  exact absurd (IsUtcRendering_unique _ _ _ h hl) (by decide)

/-- C6, amended: for every timestamp whose instant is not before the zero of the
absolute time scale of package `time` (Unix second -9223372028715321600) and whose
whole seconds fit in an `int64`, the string `parseTime` returns is the calendar date
and wall-clock time of that instant in UTC, whatever the local time zone of the
invoking process: for a process whose local zone is at any fixed offset of `d`
seconds from UTC it equals the UTC rendering of the seconds of the timestamp, and it
is the same string as in a process whose local zone is UTC. -/
theorem parseTime_utc (d : Int) (t : Option Timestamp)
    (hlo : -9223372028715321600 ≤ instantSeconds t)
    (hhi : instantSeconds t ≤ 9223372036854775807) :
    IsUtcRendering (instantSeconds t) (parseTime d t)
    ∧ (∀ text, IsUtcRendering (instantSeconds t) text → parseTime d t = text)
    ∧ parseTime d t = parseTime 0 t := by
  have habs := AsTime_abs d t hlo hhi
  have h := Format_civil d (Timestamp.AsTime t) habs.2
  rw [habs.1] at h
  refine ⟨h, fun text htext => IsUtcRendering_unique _ _ _ h htext, ?_⟩
  apply Format_congr
  simp [Time.abs, AsTime_loc]

theorem parseTime_utc_witness :
    IsUtcRendering (instantSeconds (some { Seconds := 86399, Nanos := 999999999 }))
        (parseTime 3600 (some { Seconds := 86399, Nanos := 999999999 }))
    ∧ parseTime 3600 (some { Seconds := 86399, Nanos := 999999999 }) =
        parseTime 0 (some { Seconds := 86399, Nanos := 999999999 }) :=
  have h := parseTime_utc 3600 (some { Seconds := 86399, Nanos := 999999999 })
    (by decide) (by decide)
  ⟨h.1, h.2.2⟩

end TksClient
